import Mathlib

/-!
Verification of the station-data ETL pipeline and on-disk cache of this
repository (src/data.py and the cache/aggregation logic embedded in the
`display_yearly_data` callback of src/main.py).

The Python code is shallowly embedded: pandas dataframes become lists of
structures, CSV files become those lists, the file system of the station
cache becomes an explicit list of file entries with creation timestamps,
and fallible stages return `Option` / an outcome value.  Numeric values
are modelled exactly with `ℚ` (the Python floats in play are produced by
`round(x, 2)` on means of tenth-of-degree integers; we use exact rational
arithmetic with the same round-half-to-even tie rule as Python's
`round`).
-/

/-- Round-half-to-even on rationals, the tie rule of Python's built-in
`round` (and of `pandas.DataFrame.round`). -/
def roundHalfEven (q : ℚ) : ℤ :=
  let f := ⌊q⌋
  let r := q - f
  if r < 1/2 then f
  else if 1/2 < r then f + 1
  else if f % 2 = 0 then f else f + 1

/-- `round(x, 2)` of Python / pandas: round to 2 decimal places. -/
def roundTo2 (q : ℚ) : ℚ := (roundHalfEven (q * 100) : ℚ) / 100

/-- Arithmetic mean of a list of rationals; `none` for the empty list
(pandas `.mean()` of an empty / all-NaN column is NaN, modelled as
`none`). -/
def optMean (l : List ℚ) : Option ℚ :=
  if l.isEmpty then none else some (l.sum / l.length)

/-- Numeric value of a list of decimal digit characters. -/
def digitsVal (cs : List Char) : Nat :=
  cs.foldl (fun a c => a * 10 + (c.toNat - 48)) 0

/-- Python's `int(s)` on a short ASCII field: strip surrounding
whitespace, allow one optional sign, then require a nonempty run of
decimal digits; anything else raises `ValueError`, modelled as `none`.
(Underscore digit grouping and non-ASCII digits, which Python also
accepts, cannot occur in the fixed-width archive fields and are not
modelled.) -/
def pythonInt (s : String) : Option Int :=
  let t := s.toList.dropWhile Char.isWhitespace
  let t := (t.reverse.dropWhile Char.isWhitespace).reverse
  match t with
  | [] => none
  | c :: rest =>
    let p : Bool × List Char :=
      if c = '-' then (true, rest)
      else if c = '+' then (false, rest)
      else (false, c :: rest)
    if p.2.isEmpty then none
    else if p.2.all Char.isDigit then
      some (if p.1 then -(digitsVal p.2 : Int) else (digitsVal p.2 : Int))
    else none

/-- Python slicing `line[a:b]` on a string (character positions, as
Python counts code points). -/
def strSlice (line : String) (a b : Nat) : String :=
  String.mk ((line.toList.drop a).take (b - a))

/-- One row of the raw per-station CSV written by
`download_station_data` (src/data.py:123-133). -/
structure DailyObservation where
  station_id : String
  year : Int
  month : Int
  day : Nat
  element : String
  value : Int
  quality_flag : String
  measurement_flag : String
  source_flag : String
deriving DecidableEq, Repr

/-- The 5-character value field of day slot `day` (0-based) of a
fixed-width archive line: `line[21+day*8 : 21+day*8+5]`
(src/data.py:109-110). -/
def valueField (line : String) (day : Nat) : String :=
  strSlice line (21 + day * 8) (21 + day * 8 + 5)

/-- The body of the day loop of `download_station_data`
(src/data.py:108-133) for day slot `day` (0-based) of `line`, given the
already-parsed year and month header fields: the observation is kept
only when the 5-character value field parses as an integer different
from the -9999 sentinel; the three 1-character flags are sliced from
the positions following the value. -/
def daySlot (line : String) (y m : Int) (day : Nat) : Option DailyObservation :=
  (pythonInt (valueField line day)).bind fun v =>
    if v = -9999 then none
    else some
      { station_id := strSlice line 0 11
        year := y
        month := m
        day := day + 1
        element := strSlice line 17 21
        value := v
        quality_flag := strSlice line (21 + day * 8 + 5) (21 + day * 8 + 6)
        measurement_flag := strSlice line (21 + day * 8 + 6) (21 + day * 8 + 7)
        source_flag := strSlice line (21 + day * 8 + 7) (21 + day * 8 + 8) }

/-- Parsing of one fixed-width archive line, the loop body of
`download_station_data` (src/data.py:98-133).  Lines shorter than 269
characters are skipped (`some []`).  The `int(...)` calls on the year
and month header fields are outside the inner `try`, so their failure
propagates to the enclosing handler and aborts the whole download:
modelled by `Option.bind` (`none` aborts). -/
def parseLine (line : String) : Option (List DailyObservation) :=
  if line.length < 269 then some []
  else
    (pythonInt (strSlice line 11 15)).bind fun year =>
      (pythonInt (strSlice line 15 17)).map fun month =>
        (List.range 31).filterMap (daySlot line year month)

/-- `str.split('\\n')`: cut the character list at every newline,
keeping empty pieces (structural model of Python's split). -/
def splitLinesAux : List Char → List Char → List String
  | [], acc => [String.mk acc.reverse]
  | c :: rest, acc =>
    if c = '\n' then String.mk acc.reverse :: splitLinesAux rest []
    else splitLinesAux rest (c :: acc)

/-- `content.split('\\n')` of src/data.py:96. -/
def splitLines (content : String) : List String :=
  splitLinesAux content.toList []

/-- The parsing core of `download_station_data` (src/data.py:94-136):
split the downloaded text on newlines and parse each line; any header
parse error makes the whole function return `False` with no file
written (`none` here). -/
def parseArchive (content : String) : Option (List DailyObservation) :=
  ((splitLines content).mapM parseLine).map List.flatten

/-- One row of the cleaned per-station CSV produced by
`clean_station_data`: flag columns removed, value in degrees Celsius. -/
structure CleanedObservation where
  station_id : String
  year : Int
  month : Int
  day : Nat
  element : String
  value : ℚ
deriving DecidableEq, Repr

/-- `clean_station_data` (src/data.py:162-179), as the pure transform it
applies to the rows of the raw CSV: keep elements TMAX and TMIN, map
`Value` through `round(x / 10.0, 2)`, drop the three flag columns. -/
def clean_station_data (obs : List DailyObservation) : List CleanedObservation :=
  (obs.filter fun o => o.element == "TMAX" || o.element == "TMIN").map fun o =>
    { station_id := o.station_id
      year := o.year
      month := o.month
      day := o.day
      element := o.element
      value := roundTo2 ((o.value : ℚ) / 10) }

/-- First-occurrence deduplication, `pandas.Series.unique` /
`drop_duplicates` order. -/
def uniqueFirst {α : Type} [DecidableEq α] (l : List α) : List α :=
  l.foldl (fun acc a => if a ∈ acc then acc else acc ++ [a]) []

/-- Insert an integer key into a sorted duplicate-free key list, the
building block of the sorted group keys produced by pandas `groupby`. -/
def insortInt (x : Int) : List Int → List Int
  | [] => [x]
  | y :: ys =>
    if x < y then x :: y :: ys
    else if x = y then y :: ys
    else y :: insortInt x ys

/-- The sorted, duplicate-free key list of a pandas `groupby` over an
integer column. -/
def sortedKeysInt (l : List Int) : List Int := l.foldr insortInt []

/-- One row of the `{station_id}_monthly.csv` file produced by
`create_monthly_averages`: columns `Station_ID, Year, Month, TMAX, TMIN`
with either temperature possibly NaN (modelled as `none`). -/
structure MonthlyRow where
  station_id : String
  year : Int
  month : Int
  tmax : Option ℚ
  tmin : Option ℚ
deriving DecidableEq, Repr

/-- One cell of the pivoted monthly table: the mean of the cleaned
values of element `el` in month `(y, m)` rounded to 2 decimals
(`groupby(['Year','Month','Element'])['Value'].mean().round(2)`,
src/data.py:202), or NaN (`none`) when the pivot has no group for
`(y, m, el)` (src/data.py:205-209). -/
def monthlyCell (obs : List CleanedObservation) (y m : Int) (el : String) : Option ℚ :=
  (optMean (obs.filterMap fun o =>
    if o.year == y && o.month == m && o.element == el then some o.value else none)).map roundTo2

/-- `create_monthly_averages` (src/data.py:196-228) as the transform it
applies to the rows of the cleaned CSV.  The pivoted table has one row
per distinct `(Year, Month)` pair of the input and one column per
element present in the input; the subsequent column selection
`monthly_df[['Station_ID','Year','Month','TMAX','TMIN']]`
(src/data.py:218) raises `KeyError` — so the function returns `False`,
here `none` — when either element is absent from the whole input.
(pandas sorts the pivot index; row order is kept as first occurrence
here, no claim depends on it.) -/
def create_monthly_averages (sid : String) (obs : List CleanedObservation) :
    Option (List MonthlyRow) :=
  if obs.any (fun o => o.element == "TMAX") && obs.any (fun o => o.element == "TMIN") then
    some ((uniqueFirst (obs.map fun o => (o.year, o.month))).map fun p =>
      { station_id := sid
        year := p.1
        month := p.2
        tmax := monthlyCell obs p.1 p.2 "TMAX"
        tmin := monthlyCell obs p.1 p.2 "TMIN" })
  else none

/-- One row of the `{station_id}_yearly.csv` file produced by
`create_yearly_averages`. -/
structure YearlyRow where
  station_id : String
  year : Int
  tmax : Option ℚ
  tmin : Option ℚ
deriving DecidableEq, Repr

/-- `create_yearly_averages` (src/data.py:242-262) as the transform it
applies to the rows of the monthly CSV: group by `Year` (pandas yields
the sorted distinct years), take `'first'` of `Station_ID` and the mean
of the monthly TMAX / TMIN values (NaN entries skipped; all-NaN mean is
NaN, modelled `none`), rounded to 2 decimals. -/
def create_yearly_averages (monthly : List MonthlyRow) : List YearlyRow :=
  (sortedKeysInt (monthly.map fun r => r.year)).map fun y =>
    let g := monthly.filter fun r => r.year == y
    { station_id := ((g.map fun r => r.station_id).head?).getD ""
      year := y
      tmax := (optMean (g.filterMap fun r => r.tmax)).map roundTo2
      tmin := (optMean (g.filterMap fun r => r.tmin)).map roundTo2 }

/-- A season's aggregate in `calculate_seasonal_data`:
`rows['TMIN'].mean().round(2) if not rows.empty else None`
(src/main.py:535-542).  A nonempty row set whose values are all NaN
gives NaN; both NaN and `None` are modelled as `none`. -/
def seasonVal (rows : List MonthlyRow) (f : MonthlyRow → Option ℚ) : Option ℚ :=
  if rows.isEmpty then none else (optMean (rows.filterMap f)).map roundTo2

/-- One row of the seasonal table built by `calculate_seasonal_data`
(src/main.py:531-543); German column names as in the code. -/
structure SeasonalRow where
  jahr : Int
  minYearly : Option ℚ
  maxYearly : Option ℚ
  winterMin : Option ℚ
  winterMax : Option ℚ
  fruehlingMin : Option ℚ
  fruehlingMax : Option ℚ
  sommerMin : Option ℚ
  sommerMax : Option ℚ
  herbstMin : Option ℚ
  herbstMax : Option ℚ
deriving DecidableEq, Repr

/-- `calculate_seasonal_data` (src/main.py:507-546).  For each year (in
first-occurrence order of `df['Year'].unique()`): the Dec(Y-1)+Jan+Feb
row set is `prev_year[Month==12]` concatenated with
`current_year[Month in {1,2}]`; in the northern branch it is assigned to
winter, Mar-May to spring, Jun-Aug to summer, Sep-Nov to fall; in the
southern branch the same four month sets are assigned to summer, fall,
winter and spring respectively (src/main.py:514-529).  The yearly
min/max columns read the yearly dataframe with `.iloc[0]` (a crash when
the year is absent, modelled as `none` via `find?`). -/
def calculate_seasonal_data (yearly_df : List YearlyRow) (is_northern : Bool)
    (df : List MonthlyRow) : List SeasonalRow :=
  (uniqueFirst (df.map fun r => r.year)).map fun y =>
    let cur := df.filter fun r => r.year == y
    let prev := df.filter fun r => r.year == y - 1
    let decJanFeb :=
      prev.filter (fun r => r.month == 12) ++ cur.filter (fun r => r.month == 1 || r.month == 2)
    let marAprMay := cur.filter fun r => r.month == 3 || r.month == 4 || r.month == 5
    let junJulAug := cur.filter fun r => r.month == 6 || r.month == 7 || r.month == 8
    let sepOctNov := cur.filter fun r => r.month == 9 || r.month == 10 || r.month == 11
    let winter := if is_northern then decJanFeb else junJulAug
    let spring := if is_northern then marAprMay else sepOctNov
    let summer := if is_northern then junJulAug else decJanFeb
    let fall := if is_northern then sepOctNov else marAprMay
    { jahr := y
      minYearly := (yearly_df.find? fun r => r.year == y).bind fun r => r.tmin
      maxYearly := (yearly_df.find? fun r => r.year == y).bind fun r => r.tmax
      winterMin := seasonVal winter (fun r => r.tmin)
      winterMax := seasonVal winter (fun r => r.tmax)
      fruehlingMin := seasonVal spring (fun r => r.tmin)
      fruehlingMax := seasonVal spring (fun r => r.tmax)
      sommerMin := seasonVal summer (fun r => r.tmin)
      sommerMax := seasonVal summer (fun r => r.tmax)
      herbstMin := seasonVal fall (fun r => r.tmin)
      herbstMax := seasonVal fall (fun r => r.tmax) }

/-- Hemisphere selection of `display_yearly_data`:
`is_northern = station_lat >= 0` (src/main.py:505). -/
def display_is_northern (lat : ℚ) : Bool := decide (0 ≤ lat)

/-- The seasonal table as built inside `display_yearly_data` for a
station at latitude `lat` (src/main.py:505-548). -/
def display_seasonal (yearly_df : List YearlyRow) (lat : ℚ) (df : List MonthlyRow) :
    List SeasonalRow :=
  calculate_seasonal_data yearly_df (display_is_northern lat) df

/-- One row of the whitespace-delimited inventory file read by
`initialize_stations_data` (src/data.py:36-39). -/
structure InventoryRow where
  station_id : String
  latitude : ℚ
  longitude : ℚ
  element : String
  firstYear : Int
  lastYear : Int
deriving DecidableEq, Repr

/-- One row of the raw station-list file as read by
`initialize_stations_data` with `usecols=[0, 5]`: only the station ID
and station name columns (src/data.py:45-47). -/
structure StationNameRow where
  station_id : String
  station_name : String
deriving DecidableEq, Repr

/-- One row of the persisted `stations.csv` catalog
(src/data.py:56-69). -/
structure CatalogRow where
  station_id : String
  latitude : Option ℚ
  longitude : Option ℚ
  firstYear : Int
  lastYear : Int
  station_name : String
deriving DecidableEq, Repr

/-- `pd.merge(stations_names_df, inventory_df, on='Station_ID',
how='left')` (src/data.py:50-53): every station row is kept; a station
with no matching inventory row gets one row with all inventory columns
NaN (`none`). -/
def mergeLeft (stations : List StationNameRow) (inv : List InventoryRow) :
    List (StationNameRow × Option InventoryRow) :=
  (stations.map fun s =>
    let rs := inv.filter fun r => r.station_id == s.station_id
    if rs.isEmpty then [(s, none)] else rs.map fun r => (s, some r)).flatten

/-- `max` aggregation of a pandas groupby column (NaN entries are
already dropped from the argument list; all-NaN gives `none`). -/
def maxOptInt : List Int → Option Int
  | [] => none
  | x :: xs => some (xs.foldl max x)

/-- `min` aggregation of a pandas groupby column. -/
def minOptInt : List Int → Option Int
  | [] => none
  | x :: xs => some (xs.foldl min x)

/-- The dataframe part of `initialize_stations_data`
(src/data.py:36-69): filter the inventory to TMAX/TMIN rows, left-merge
station names with it, group by `Station_ID` taking `'first'` of
latitude / longitude / name (pandas `'first'` skips NaN), `'max'` of
`FirstYear` and `'min'` of `LastYear`, then `fillna(0)` on the two year
columns only.  (pandas sorts the group keys; first-occurrence order is
kept here, no claim depends on it.) -/
def initialize_stations_data (stations : List StationNameRow)
    (inventory : List InventoryRow) : List CatalogRow :=
  let invF := inventory.filter fun r => r.element == "TMAX" || r.element == "TMIN"
  let merged := mergeLeft stations invF
  (uniqueFirst (merged.map fun p => p.1.station_id)).map fun sid =>
    let rows := merged.filter fun p => p.1.station_id == sid
    { station_id := sid
      latitude := (rows.filterMap fun p => p.2.map fun r => r.latitude).head?
      longitude := (rows.filterMap fun p => p.2.map fun r => r.longitude).head?
      firstYear := (maxOptInt (rows.filterMap fun p => p.2.map fun r => r.firstYear)).getD 0
      lastYear := (minOptInt (rows.filterMap fun p => p.2.map fun r => r.lastYear)).getD 0
      station_name := ((rows.map fun p => p.1.station_name).head?).getD "" }

/-- The three per-station dataset files of the cache:
`{sid}.csv`, `{sid}_monthly.csv`, `{sid}_yearly.csv`. -/
inductive FileKind
  | raw
  | monthly
  | yearly
deriving DecidableEq, Repr

/-- One file of `./data/stations/` with its creation timestamp
(`os.path.getctime`). -/
structure FileEntry where
  station : String
  kind : FileKind
  ctime : Nat
deriving DecidableEq, Repr

/-- The `./data/stations/` directory, in creation order (a model of
`os.listdir`; each (station, kind) pair occurs at most once because
writing replaces). -/
abbrev FS := List FileEntry

/-- `os.path.exists` for a station's dataset file. -/
def fileExists (fs : FS) (s : String) (k : FileKind) : Bool :=
  fs.any fun e => e.station == s && e.kind == k

/-- Writing a dataset file: replaces any previous file of the same
station and kind, with creation time `t`. -/
def writeFile (fs : FS) (s : String) (k : FileKind) (t : Nat) : FS :=
  (fs.filter fun e => !(e.station == s && e.kind == k)) ++ [⟨s, k, t⟩]

/-- `[f for f in os.listdir("./data/stations") if f.endswith('_yearly.csv')]`
(src/main.py:464), as station IDs. -/
def yearlyStations (fs : FS) : List String :=
  (fs.filter fun e => e.kind == FileKind.yearly).map fun e => e.station

/-- Creation times of the existing dataset files of station `s`
(src/main.py:470-475: the raw, monthly and yearly paths are checked;
those are exactly the entries of `s`). -/
def ctimesOf (fs : FS) (s : String) : List Nat :=
  (fs.filter fun e => e.station == s).map fun e => e.ctime

/-- `min(os.path.getctime(f) for f in files_to_check if os.path.exists(f))`
(src/main.py:475). -/
def minCtime (fs : FS) (s : String) : Nat :=
  match ctimesOf fs s with
  | [] => 0
  | t :: ts => ts.foldl min t

/-- Python's `min(l, key=lambda x: x[1])` (src/main.py:478): the first
element attaining the minimal second component. -/
def argminFirst (l : List (String × Nat)) : Option (String × Nat) :=
  match l with
  | [] => none
  | x :: xs => some (xs.foldl (fun b a => if a.2 < b.2 then a else b) x)

/-- The eviction step of `display_yearly_data` (src/main.py:466-482):
among stations owning a yearly file, pick the one whose existing
dataset files have the oldest minimum creation time and delete all its
files. -/
def evictOldest (fs : FS) : FS :=
  let sts := (yearlyStations fs).map fun s => (s, minCtime fs s)
  match argminFirst sts with
  | none => fs
  | some p => fs.filter fun e => !(e.station == p.1)

/-- Success / failure of the four externally-effectful pipeline stages
(`download_station_data`, `clean_station_data`,
`create_monthly_averages`, `create_yearly_averages`), each of which
returns a boolean to `display_yearly_data` (src/main.py:485-492). -/
structure StageOk where
  download : Bool
  clean : Bool
  monthly : Bool
  yearly : Bool
deriving DecidableEq, Repr

/-- Outcome of one cache access: served from existing files, built
fresh, or aborted at stage `n` (0 = download, 1 = clean, 2 = monthly,
3 = yearly) — the raised exception is caught and turned into the single
user-facing failure message (src/main.py:486-492, 733-735). -/
inductive BuildOutcome
  | hit
  | built
  | failed (stage : Nat)
deriving DecidableEq, Repr

/-- The cache logic of `display_yearly_data` (src/main.py:454-492).
Cache hit when the monthly AND yearly files exist (the raw file path is
computed but never checked, src/main.py:457,462).  On a miss: evict
first if at least 10 stations have a yearly file, then run the four
stages in order; a failing stage raises, leaving the files already
written in place.  Each successful stage writes (or, for
`clean_station_data`, rewrites) its file; all writes of one build carry
the same timestamp `now`. -/
def get_or_build (fs : FS) (sid : String) (ok : StageOk) (now : Nat) :
    FS × BuildOutcome :=
  if fileExists fs sid .monthly && fileExists fs sid .yearly then
    (fs, .hit)
  else
    let fs1 := if 10 ≤ (yearlyStations fs).length then evictOldest fs else fs
    if ok.download = false then (fs1, .failed 0)
    else
      let fs2 := writeFile fs1 sid .raw now
      if ok.clean = false then (fs2, .failed 1)
      else
        let fs3 := writeFile fs2 sid .raw now
        if ok.monthly = false then (fs3, .failed 2)
        else
          let fs4 := writeFile fs3 sid .monthly now
          if ok.yearly = false then (fs4, .failed 3)
          else (writeFile fs4 sid .yearly now, .built)

/-- All four pipeline stages succeed. -/
def allOk : StageOk := ⟨true, true, true, true⟩

/-- A sequence of successful builds at strictly increasing timestamps
`t, t+1, ...`, one `display_yearly_data` invocation per station ID. -/
def buildAll (fs : FS) (sids : List String) (t : Nat) : FS :=
  match sids with
  | [] => fs
  | s :: rest => buildAll (get_or_build fs s allOk t).1 rest (t + 1)

/-- The three files of one freshly built station, all with creation
time `t`. -/
def stationBlock (s : String) (t : Nat) : FS :=
  [⟨s, .raw, t⟩, ⟨s, .monthly, t⟩, ⟨s, .yearly, t⟩]

/-- The file-system contents after building the given stations in
order at timestamps `t, t+1, ...`. -/
def blocks : List String → Nat → FS
  | [], _ => []
  | s :: r, t => stationBlock s t ++ blocks r (t + 1)

/-- The row set {December of Y-1, January of Y, February of Y} of a
monthly dataframe, the months the spec assigns to the northern winter
(southern summer) of year Y. -/
def northWinterRows (df : List MonthlyRow) (y : Int) : List MonthlyRow :=
  df.filter fun r => (r.year == y - 1 && r.month == 12) || (r.year == y && (r.month == 1 || r.month == 2))

/-- Rotation of the season labels by two quarters (northern winter
months = southern summer months, and so on). -/
def rotateSeasons (r : SeasonalRow) : SeasonalRow :=
  { r with
    sommerMin := r.winterMin, sommerMax := r.winterMax
    herbstMin := r.fruehlingMin, herbstMax := r.fruehlingMax
    winterMin := r.sommerMin, winterMax := r.sommerMax
    fruehlingMin := r.herbstMin, fruehlingMax := r.herbstMax }

/-- A raw TMAX observation with value 215 tenths of a degree. -/
def obs215 : DailyObservation :=
  ⟨"GME00102380", 2021, 1, 1, "TMAX", 215, "", "", ""⟩

/-- A cache directory holding only the monthly and yearly files of
station S1 (no raw file). -/
def fsMY : FS := [⟨"S1", .monthly, 0⟩, ⟨"S1", .yearly, 0⟩]

/-- A 269-character archive line with a parseable day-1 value (215) but
a non-numeric year header field. -/
def c4badLine : String :=
  "GME00102380YYYY01TMAX" ++ "  215ABC" ++ String.join (List.replicate 30 "-9999ABC")

/-- A well-formed 269-character archive line: day 1 holds 215, the
other 30 day slots hold the missing-value sentinel -9999. -/
def c4goodLine : String :=
  "GME00102380202101TMAX" ++ "  215ABC" ++ String.join (List.replicate 30 "-9999ABC")

/-- A cleaned dataset containing a TMIN observation and no TMAX one. -/
def tminOnlyObs : List CleanedObservation := [⟨"S1", 2021, 1, 1, "TMIN", 43/2⟩]

/-- A cleaned dataset containing both elements. -/
def bothObs : List CleanedObservation :=
  [⟨"S1", 2021, 1, 1, "TMAX", 43/2⟩, ⟨"S1", 2021, 1, 2, "TMIN", 5⟩]

/-- Monthly data spanning December 2020 and January / February /
December 2021; winter 2021 must use the December 2020 value 3, not the
December 2021 value 100. -/
def c6df : List MonthlyRow :=
  [⟨"S1", 2020, 12, none, some 3⟩, ⟨"S1", 2021, 1, none, some 5⟩,
   ⟨"S1", 2021, 2, none, some 7⟩, ⟨"S1", 2021, 12, none, some 100⟩]

/-- A monthly dataset with two months of one year. -/
def c8monthly : List MonthlyRow :=
  [⟨"S1", 2021, 1, some 10, some 0⟩, ⟨"S1", 2021, 2, some 20, none⟩]

/-- A one-line station list. -/
def c10stations : List StationNameRow := [⟨"S1", "Name1"⟩]

/-- An inventory whose only row for S1 is a precipitation element. -/
def c10inventory : List InventoryRow := [⟨"S1", 48, 8, "PRCP", 1900, 2000⟩]

lemma roundHalfEven_intCast (n : ℤ) : roundHalfEven (n : ℚ) = n := by
  unfold roundHalfEven
  rw [Int.floor_intCast]
  norm_num

lemma roundTo2_div10 (x : ℤ) : roundTo2 ((x : ℚ) / 10) = (x : ℚ) / 10 := by
  unfold roundTo2
  have h : ((x : ℚ) / 10) * 100 = ((10 * x : ℤ) : ℚ) := by push_cast; ring
  rw [h, roundHalfEven_intCast]
  push_cast; ring

lemma roundTo2_intCast (n : ℤ) : roundTo2 (n : ℚ) = n := by
  unfold roundTo2
  have h : (n : ℚ) * 100 = ((100 * n : ℤ) : ℚ) := by push_cast; ring
  rw [h, roundHalfEven_intCast]
  push_cast; ring

/-- C5: Cleaning restricted to TMAX/TMIN yields, for each kept
observation, `value = original_tenths / 10` rounded to 2 decimals
(which, tenths having one decimal digit, equals `original_tenths / 10`
exactly), with the flag fields removed and all other-element
observations dropped. -/
theorem clean_round_trip (obs : List DailyObservation) :
    (∀ c ∈ clean_station_data obs,
       (c.element = "TMAX" ∨ c.element = "TMIN") ∧
       ∃ o ∈ obs, o.element = c.element ∧ o.station_id = c.station_id ∧
         o.year = c.year ∧ o.month = c.month ∧ o.day = c.day ∧
         c.value = (o.value : ℚ) / 10) ∧
    (∀ o ∈ obs, (o.element = "TMAX" ∨ o.element = "TMIN") →
       ∃ c ∈ clean_station_data obs, c.station_id = o.station_id ∧ c.year = o.year ∧
         c.month = o.month ∧ c.day = o.day ∧ c.element = o.element ∧
         c.value = (o.value : ℚ) / 10) := by
  constructor
  · intro c hc
    simp only [clean_station_data, List.mem_map, List.mem_filter, Bool.or_eq_true,
      beq_iff_eq] at hc
    obtain ⟨o, ⟨ho, hel⟩, rfl⟩ := hc
    refine ⟨hel, o, ho, rfl, rfl, rfl, rfl, rfl, ?_⟩
    exact roundTo2_div10 o.value
  · intro o ho hel
    refine ⟨{ station_id := o.station_id, year := o.year, month := o.month, day := o.day,
              element := o.element, value := roundTo2 ((o.value : ℚ) / 10) },
            ?_, rfl, rfl, rfl, rfl, rfl, roundTo2_div10 o.value⟩
    simp only [clean_station_data, List.mem_map, List.mem_filter, Bool.or_eq_true,
      beq_iff_eq]
    exact ⟨o, ⟨ho, hel⟩, rfl⟩

/-- C5 witness: the raw tenths value 215 for TMAX cleans to 21.5. -/
theorem clean_round_trip_witness :
    ∃ c ∈ clean_station_data [obs215], c.value = 21.5 := by
  obtain ⟨c, hc, _, _, _, _, _, hval⟩ :=
    (clean_round_trip [obs215]).2 obs215 (by simp) (Or.inl rfl)
  exact ⟨c, hc, by rw [hval]; norm_num [obs215]⟩

lemma get_or_build_hit_of (fs : FS) (sid : String) (ok : StageOk) (now : Nat)
    (hm : fileExists fs sid .monthly = true) (hy : fileExists fs sid .yearly = true) :
    get_or_build fs sid ok now = (fs, .hit) := by
  simp [get_or_build, hm, hy]

lemma get_or_build_hit_iff_files (fs : FS) (sid : String) (ok : StageOk) (now : Nat) :
    (get_or_build fs sid ok now).2 = BuildOutcome.hit ↔
      (fileExists fs sid .monthly = true ∧ fileExists fs sid .yearly = true) := by
  rcases ok with ⟨d, c, m, y⟩
  by_cases h : (fileExists fs sid .monthly && fileExists fs sid .yearly) = true
  · rw [Bool.and_eq_true] at h
    simp [get_or_build, h.1, h.2]
  · have h2 : ¬(fileExists fs sid .monthly = true ∧ fileExists fs sid .yearly = true) := by
      rw [← Bool.and_eq_true]; exact h
    rw [Bool.not_eq_true] at h
    cases d <;> cases c <;> cases m <;> cases y <;>
      simp [get_or_build, h, h2]

lemma fileExists_filter_false (fs : FS) (p : FileEntry → Bool) (s : String) (k : FileKind)
    (h : fileExists fs s k = false) : fileExists (fs.filter p) s k = false := by
  simp only [fileExists, List.any_eq_false] at h ⊢
  intro e he
  exact h e (List.mem_of_mem_filter he)

lemma fileExists_writeFile (fs : FS) (s : String) (k : FileKind) (t : Nat)
    (s' : String) (k' : FileKind) :
    fileExists (writeFile fs s k t) s' k' =
      if s = s' ∧ k = k' then true else fileExists (fs.filter fun e => !(e.station == s && e.kind == k)) s' k' := by
  by_cases h : s = s' ∧ k = k'
  · obtain ⟨rfl, rfl⟩ := h
    simp [fileExists, writeFile]
  · rw [if_neg h]
    simp only [fileExists, writeFile, List.any_append, List.any_cons, List.any_nil]
    have : (s == s' && k == k') = false := by
      rcases Decidable.not_and_iff_or_not.mp h with h1 | h1 <;> simp [h1]
    simp [this]

lemma fileExists_writeFile_same (fs : FS) (s : String) (k : FileKind) (t : Nat) :
    fileExists (writeFile fs s k t) s k = true := by
  rw [fileExists_writeFile, if_pos ⟨rfl, rfl⟩]

lemma fileExists_writeFile_other (fs : FS) (s : String) (k : FileKind) (t : Nat)
    (s' : String) (k' : FileKind) (h : ¬(s = s' ∧ k = k'))
    (h0 : fileExists fs s' k' = false) :
    fileExists (writeFile fs s k t) s' k' = false := by
  rw [fileExists_writeFile, if_neg h]
  exact fileExists_filter_false _ _ _ _ h0

/-- C1 (amended): get_or_build is a cache hit (running no stage,
rewriting no file, whatever the stages would do) exactly when the
monthly and the yearly files exist; the raw observations file is not
part of the hit decision. -/
theorem get_or_build_hit_two_files (fs : FS) (sid : String) (ok : StageOk) (now : Nat) :
    ((get_or_build fs sid ok now).2 = BuildOutcome.hit ↔
      (fileExists fs sid .monthly = true ∧ fileExists fs sid .yearly = true)) ∧
    (fileExists fs sid .monthly = true → fileExists fs sid .yearly = true →
      get_or_build fs sid ok now = (fs, .hit)) :=
  ⟨get_or_build_hit_iff_files fs sid ok now, get_or_build_hit_of fs sid ok now⟩

/-- C1 counterexample: with only the monthly and yearly files present
(no raw file) the access is still a hit — and the state is returned
unchanged even though every pipeline stage would fail, so no stage
runs.  The claim's "the hit decision requires all three files to
exist" is false of the code. -/
theorem get_or_build_hit_without_raw :
    fileExists fsMY "S1" .raw = false ∧
    get_or_build fsMY "S1" ⟨false, false, false, false⟩ 5 = (fsMY, .hit) := by
  decide

/-- C1 witness: the amended theorem applied to the two-file state. -/
theorem get_or_build_hit_two_files_witness :
    get_or_build fsMY "S1" ⟨false, false, false, false⟩ 5 = (fsMY, .hit) :=
  (get_or_build_hit_two_files fsMY "S1" ⟨false, false, false, false⟩ 5).2
    (by decide) (by decide)

lemma fileExists_writeFile_keep (fs : FS) (s : String) (k k' : FileKind) (t : Nat)
    (hkk : k ≠ k') (h : fileExists fs s k' = true) :
    fileExists (writeFile fs s k t) s k' = true := by
  simp only [fileExists, List.any_eq_true] at h ⊢
  obtain ⟨e, he, hpe⟩ := h
  refine ⟨e, ?_, hpe⟩
  simp only [writeFile, List.mem_append, List.mem_filter]
  rw [Bool.and_eq_true, beq_iff_eq, beq_iff_eq] at hpe
  left
  refine ⟨he, ?_⟩
  have hk : (e.kind == k) = false := by
    rw [beq_eq_false_iff_ne, hpe.2]
    exact fun h' => hkk h'.symm
  simp [hk]

lemma fileExists_evictOldest_false (fs : FS) (s : String) (k : FileKind)
    (h : fileExists fs s k = false) : fileExists (evictOldest fs) s k = false := by
  unfold evictOldest
  cases hm : argminFirst ((yearlyStations fs).map fun x => (x, minCtime fs x)) with
  | none => simp only [hm]; exact h
  | some p => simp only [hm]; exact fileExists_filter_false fs _ s k h

lemma fileExists_evictIf_false (fs : FS) (s : String) (k : FileKind)
    (h : fileExists fs s k = false) :
    fileExists (if 10 ≤ (yearlyStations fs).length then evictOldest fs else fs) s k = false := by
  split
  · exact fileExists_evictOldest_false fs s k h
  · exact h

/-- C2 (amended): when a pipeline stage fails during a build for a
station whose yearly file was absent, the files written by the stages
that completed remain on disk (for any failure after the download, the
raw file is present), but the yearly file is never written during a
failed attempt, so a later access for the station is again a cache
miss; a single build-failure outcome is surfaced to the caller. -/
theorem failed_build_leaves_no_yearly (fs : FS) (sid : String) (ok : StageOk) (now : Nat)
    (hno : fileExists fs sid .yearly = false) (st : Nat)
    (hfail : (get_or_build fs sid ok now).2 = .failed st) :
    fileExists (get_or_build fs sid ok now).1 sid .yearly = false ∧
    (1 ≤ st → fileExists (get_or_build fs sid ok now).1 sid .raw = true) ∧
    (∀ ok2 now2, (get_or_build (get_or_build fs sid ok now).1 sid ok2 now2).2 ≠ BuildOutcome.hit) := by
  have hcond : (fileExists fs sid FileKind.monthly && fileExists fs sid FileKind.yearly) = false := by
    rw [hno, Bool.and_false]
  have hraw_ne : ¬(sid = sid ∧ FileKind.raw = FileKind.yearly) := by rintro ⟨-, h⟩; cases h
  have hmon_ne : ¬(sid = sid ∧ FileKind.monthly = FileKind.yearly) := by rintro ⟨-, h⟩; cases h
  have hA : fileExists (get_or_build fs sid ok now).1 sid .yearly = false ∧
      (1 ≤ st → fileExists (get_or_build fs sid ok now).1 sid .raw = true) := by
    rcases ok with ⟨d, c, m, y⟩
    cases d with
    | false =>
      simp only [get_or_build, hcond] at hfail ⊢
      simp only [Bool.false_eq_true, if_false] at hfail ⊢
      norm_num at hfail ⊢
      refine ⟨fileExists_evictIf_false fs sid .yearly hno, ?_⟩
      intro hst
      omega
    | true =>
      cases c with
      | false =>
        simp only [get_or_build, hcond] at hfail ⊢
        norm_num at hfail ⊢
        refine ⟨fileExists_writeFile_other _ sid .raw now sid .yearly hraw_ne
          (fileExists_evictIf_false fs sid .yearly hno), fun _ => ?_⟩
        exact fileExists_writeFile_same _ sid .raw now
      | true =>
        cases m with
        | false =>
          simp only [get_or_build, hcond] at hfail ⊢
          norm_num at hfail ⊢
          refine ⟨fileExists_writeFile_other _ sid .raw now sid .yearly hraw_ne
            (fileExists_writeFile_other _ sid .raw now sid .yearly hraw_ne
              (fileExists_evictIf_false fs sid .yearly hno)), fun _ => ?_⟩
          exact fileExists_writeFile_same _ sid .raw now
        | true =>
          cases y with
          | false =>
            simp only [get_or_build, hcond] at hfail ⊢
            norm_num at hfail ⊢
            refine ⟨fileExists_writeFile_other _ sid .monthly now sid .yearly hmon_ne
              (fileExists_writeFile_other _ sid .raw now sid .yearly hraw_ne
                (fileExists_writeFile_other _ sid .raw now sid .yearly hraw_ne
                  (fileExists_evictIf_false fs sid .yearly hno))), fun _ => ?_⟩
            exact fileExists_writeFile_keep _ sid .monthly .raw now (by decide)
              (fileExists_writeFile_same _ sid .raw now)
          | true =>
            simp only [get_or_build, hcond] at hfail
            norm_num at hfail
            exact (BuildOutcome.noConfusion hfail)
  refine ⟨hA.1, hA.2, fun ok2 now2 hhit => ?_⟩
  have h2 := (get_or_build_hit_iff_files _ sid ok2 now2).1 hhit
  rw [hA.1] at h2
  exact Bool.false_ne_true h2.2

/-- C2 counterexample: from an empty cache, a build whose download
succeeds and whose cleaning stage fails surfaces a failure outcome but
leaves the raw file written during that failed attempt on disk. -/
theorem failed_build_leaves_raw_file :
    (get_or_build [] "S1" ⟨true, false, true, true⟩ 7).2 = .failed 1 ∧
    fileExists (get_or_build [] "S1" ⟨true, false, true, true⟩ 7).1 "S1" .raw = true := by
  decide

/-- C2 witness: the amended theorem applied to the clean-stage failure
from an empty cache. -/
theorem failed_build_leaves_no_yearly_witness :
    fileExists (get_or_build [] "S1" ⟨true, false, true, true⟩ 7).1 "S1" .yearly = false ∧
    fileExists (get_or_build [] "S1" ⟨true, false, true, true⟩ 7).1 "S1" .raw = true := by
  have h := failed_build_leaves_no_yearly [] "S1" ⟨true, false, true, true⟩ 7 (by decide) 1 (by decide)
  exact ⟨h.1, h.2.1 (by decide)⟩

lemma mem_insortInt (a x : Int) (l : List Int) : a ∈ insortInt x l ↔ a = x ∨ a ∈ l := by
  induction l with
  | nil => simp [insortInt]
  | cons y ys ih =>
    unfold insortInt
    by_cases h1 : x < y
    · simp [h1, List.mem_cons]
    · by_cases h2 : x = y
      · subst h2
        simp [h1, List.mem_cons]
      · simp [h1, h2, List.mem_cons, ih]
        tauto

lemma head_insortInt (x : Int) (l : List Int) :
    (insortInt x l).head? = some x ∨ (insortInt x l).head? = l.head? := by
  cases l with
  | nil => left; rfl
  | cons y ys =>
    unfold insortInt
    by_cases h1 : x < y
    · left; simp [h1]
    · by_cases h2 : x = y
      · right; simp [h1, h2]
      · right; simp [h1, h2]

lemma chain'_insortInt (x : Int) (l : List Int) (h : l.Chain' (· < ·)) :
    (insortInt x l).Chain' (· < ·) := by
  induction l with
  | nil => simp [insortInt]
  | cons y ys ih =>
    unfold insortInt
    by_cases h1 : x < y
    · simp only [h1, if_true, if_pos]
      exact List.chain'_cons.mpr ⟨h1, h⟩
    · by_cases h2 : x = y
      · simp [h1, h2, h]
      · have hyx : y < x := by omega
        simp only [h1, h2, if_false]
        rw [List.chain'_cons']
        refine ⟨?_, ih h.tail⟩
        intro z hz
        rcases head_insortInt x ys with he | he
        · rw [he] at hz
          cases hz
          exact hyx
        · rw [he] at hz
          exact (List.chain'_cons'.mp h).1 z hz

lemma chain'_sortedKeysInt (l : List Int) : (sortedKeysInt l).Chain' (· < ·) := by
  unfold sortedKeysInt
  induction l with
  | nil => simp
  | cons a l ih => exact chain'_insortInt a _ ih

lemma mem_sortedKeysInt (a : Int) (l : List Int) : a ∈ sortedKeysInt l ↔ a ∈ l := by
  unfold sortedKeysInt
  induction l with
  | nil => simp
  | cons b l ih =>
    rw [List.foldr_cons, mem_insortInt, ih, List.mem_cons]

lemma mem_uniqueFirst_aux {α : Type} [DecidableEq α] (l : List α) :
    ∀ (acc : List α) (x : α),
      x ∈ l.foldl (fun acc a => if a ∈ acc then acc else acc ++ [a]) acc ↔ x ∈ acc ∨ x ∈ l := by
  induction l with
  | nil => simp
  | cons a l ih =>
    intro acc x
    rw [List.foldl_cons, ih]
    by_cases h : a ∈ acc
    · simp only [h, if_true, List.mem_cons]
      constructor
      · rintro (hx | hx)
        · exact Or.inl hx
        · exact Or.inr (Or.inr hx)
      · rintro (hx | rfl | hx)
        · exact Or.inl hx
        · exact Or.inl h
        · exact Or.inr hx
    · simp only [h, if_false, List.mem_append, List.mem_cons, List.mem_singleton]
      tauto

lemma mem_uniqueFirst {α : Type} [DecidableEq α] (x : α) (l : List α) :
    x ∈ uniqueFirst l ↔ x ∈ l := by
  unfold uniqueFirst
  rw [mem_uniqueFirst_aux]
  simp

lemma nodup_uniqueFirst_aux {α : Type} [DecidableEq α] (l : List α) :
    ∀ acc : List α, acc.Nodup →
      (l.foldl (fun acc a => if a ∈ acc then acc else acc ++ [a]) acc).Nodup := by
  induction l with
  | nil => intro acc h; exact h
  | cons a l ih =>
    intro acc h
    rw [List.foldl_cons]
    by_cases ha : a ∈ acc
    · simp only [ha, if_true]
      exact ih acc h
    · simp only [ha, if_false]
      refine ih _ ?_
      simp [List.nodup_append, h, ha]

lemma nodup_uniqueFirst {α : Type} [DecidableEq α] (l : List α) : (uniqueFirst l).Nodup :=
  nodup_uniqueFirst_aux l [] List.nodup_nil

lemma filterMap_filter_if {α β : Type} (p : α → Bool) (f : α → Option β) (l : List α) :
    (l.filter p).filterMap f = l.filterMap fun a => if p a then f a else none := by
  induction l with
  | nil => rfl
  | cons a l ih =>
    by_cases h : p a = true
    · simp [List.filter_cons, List.filterMap_cons, h, ih]
    · simp [List.filter_cons, List.filterMap_cons, h, ih,
        Bool.not_eq_true _ ▸ h]

lemma yearly_years_eq (monthly : List MonthlyRow) :
    (create_yearly_averages monthly).map (fun r => r.year) =
      sortedKeysInt (monthly.map fun r => r.year) := by
  unfold create_yearly_averages
  rw [List.map_map]
  exact List.map_id _

/-- C9: rows of the yearly dataset are strictly increasing in year (in
particular duplicate-free), and the set of years in the yearly dataset
equals the set of years in the monthly dataset. -/
theorem yearly_years_sorted_and_match (monthly : List MonthlyRow) :
    ((create_yearly_averages monthly).map (fun r => r.year)).Chain' (· < ·) ∧
    ∀ y, (∃ r ∈ create_yearly_averages monthly, r.year = y) ↔
      ∃ m ∈ monthly, m.year = y := by
  constructor
  · rw [yearly_years_eq]
    exact chain'_sortedKeysInt _
  · intro y
    constructor
    · rintro ⟨r, hr, rfl⟩
      have hmem : r.year ∈ (create_yearly_averages monthly).map (fun r => r.year) :=
        List.mem_map_of_mem _ hr
      rw [yearly_years_eq, mem_sortedKeysInt] at hmem
      obtain ⟨m, hm, hmy⟩ := List.mem_map.mp hmem
      exact ⟨m, hm, hmy⟩
    · rintro ⟨m, hm, rfl⟩
      have hmem : m.year ∈ (create_yearly_averages monthly).map (fun r => r.year) := by
        rw [yearly_years_eq, mem_sortedKeysInt]
        exact List.mem_map_of_mem _ hm
      obtain ⟨r, hr, hry⟩ := List.mem_map.mp hmem
      exact ⟨r, hr, hry⟩

/-- C9 witness: the theorem applied to the two-month dataset. -/
theorem yearly_years_sorted_and_match_witness :
    ∃ r ∈ create_yearly_averages c8monthly, r.year = 2021 :=
  ((yearly_years_sorted_and_match c8monthly).2 2021).mpr
    ⟨⟨"S1", 2021, 1, some 10, some 0⟩, by simp [c8monthly], rfl⟩

/-- C8: the yearly aggregation produces, per year of the monthly data,
the mean of the monthly tmax / tmin values present that year
(mean-of-monthly-means), rounded to 2 decimals; any year with at least
one monthly row produces a yearly row. -/
theorem yearly_mean_of_monthly_means (monthly : List MonthlyRow) :
    (∀ y, (∃ m ∈ monthly, m.year = y) →
       ∃ r ∈ create_yearly_averages monthly, r.year = y) ∧
    (∀ r ∈ create_yearly_averages monthly,
       (∃ m ∈ monthly, m.year = r.year) ∧
       r.tmax = (optMean (monthly.filterMap fun m =>
         if m.year = r.year then m.tmax else none)).map roundTo2 ∧
       r.tmin = (optMean (monthly.filterMap fun m =>
         if m.year = r.year then m.tmin else none)).map roundTo2) := by
  have hcond : ∀ (y : Int) (g : MonthlyRow → Option ℚ),
      (fun m => if (m.year == y) = true then g m else none) =
        (fun m => if m.year = y then g m else none) := by
    intro y g
    funext m
    by_cases h : m.year = y <;> simp [h]
  constructor
  · intro y hy
    obtain ⟨m, hm, rfl⟩ := hy
    have hk : m.year ∈ sortedKeysInt (monthly.map fun r => r.year) := by
      rw [mem_sortedKeysInt]
      exact List.mem_map_of_mem _ hm
    exact ⟨_, List.mem_map_of_mem _ hk, rfl⟩
  · intro r hr
    unfold create_yearly_averages at hr
    obtain ⟨y, hy, rfl⟩ := List.mem_map.mp hr
    rw [mem_sortedKeysInt] at hy
    obtain ⟨m, hm, hmy⟩ := List.mem_map.mp hy
    refine ⟨⟨m, hm, hmy⟩, ?_, ?_⟩
    · show (optMean ((monthly.filter fun r => r.year == y).filterMap fun r => r.tmax)).map roundTo2 = _
      rw [filterMap_filter_if, hcond]
    · show (optMean ((monthly.filter fun r => r.year == y).filterMap fun r => r.tmin)).map roundTo2 = _
      rw [filterMap_filter_if, hcond]

/-- C8 witness: for monthly means {Jan: 10, Feb: 20} the yearly tmax is
15, and a year with only one tmin month still aggregates it (tmin 0). -/
theorem yearly_mean_of_monthly_means_witness :
    ∃ r ∈ create_yearly_averages c8monthly,
      r.year = 2021 ∧ r.tmax = some 15 ∧ r.tmin = some 0 := by
  obtain ⟨r, hr, hy⟩ := (yearly_mean_of_monthly_means c8monthly).1 2021
    ⟨⟨"S1", 2021, 1, some 10, some 0⟩, by simp [c8monthly], rfl⟩
  have h2 := (yearly_mean_of_monthly_means c8monthly).2 r hr
  refine ⟨r, hr, hy, ?_, ?_⟩
  · rw [h2.2.1, hy]
    have hl : (c8monthly.filterMap fun m => if m.year = (2021 : Int) then m.tmax else none)
        = [10, 20] := by simp [c8monthly]
    rw [hl]
    have hm : optMean [10, 20] = some 15 := by unfold optMean; norm_num
    rw [hm]
    show some (roundTo2 15) = some 15
    rw [show (15 : ℚ) = ((15 : ℤ) : ℚ) by norm_num, roundTo2_intCast]
  · rw [h2.2.2, hy]
    have hl : (c8monthly.filterMap fun m => if m.year = (2021 : Int) then m.tmin else none)
        = [0] := by simp [c8monthly]
    rw [hl]
    have hm : optMean [0] = some 0 := by unfold optMean; norm_num
    rw [hm]
    show some (roundTo2 0) = some 0
    rw [show (0 : ℚ) = ((0 : ℤ) : ℚ) by norm_num, roundTo2_intCast]

lemma optMean_eq_none_iff (l : List ℚ) : optMean l = none ↔ l = [] := by
  unfold optMean
  cases l <;> simp

lemma monthlyCell_none_iff (obs : List CleanedObservation) (y m : Int) (el : String) :
    monthlyCell obs y m el = none ↔
      ¬ ∃ o ∈ obs, o.year = y ∧ o.month = m ∧ o.element = el := by
  unfold monthlyCell
  rw [Option.map_eq_none', optMean_eq_none_iff, List.filterMap_eq_nil_iff]
  constructor
  · rintro h ⟨o, ho, h1, h2, h3⟩
    have := h o ho
    simp [h1, h2, h3] at this
  · intro h o ho
    by_cases hc : (o.year == y && o.month == m && o.element == el) = true
    · exfalso
      rw [Bool.and_eq_true, Bool.and_eq_true] at hc
      exact h ⟨o, ho, beq_iff_eq.mp hc.1.1, beq_iff_eq.mp hc.1.2, beq_iff_eq.mp hc.2⟩
    · exact if_neg hc

/-- C7 (amended): provided each of TMAX and TMIN occurs somewhere in
the cleaned input (otherwise the pivoted column selection fails and the
stage reports failure), the monthly aggregation produces exactly one
row per distinct (year, month) pair, whose tmax / tmin fields are the
per-element monthly means rounded to 2 decimals, absent (`none`, never
zero) exactly when that element has no observation in that month. -/
theorem monthly_pivot_rows (sid : String) (obs : List CleanedObservation)
    (hmax : ∃ o ∈ obs, o.element = "TMAX") (hmin : ∃ o ∈ obs, o.element = "TMIN") :
    ∃ rows, create_monthly_averages sid obs = some rows ∧
      (rows.map fun r => (r.year, r.month)).Nodup ∧
      (∀ y m, ((y, m) ∈ obs.map fun o => (o.year, o.month)) ↔
        ∃ r ∈ rows, r.year = y ∧ r.month = m) ∧
      (∀ r ∈ rows,
        r.station_id = sid ∧
        r.tmax = monthlyCell obs r.year r.month "TMAX" ∧
        r.tmin = monthlyCell obs r.year r.month "TMIN" ∧
        (r.tmax = none ↔ ¬ ∃ o ∈ obs, o.year = r.year ∧ o.month = r.month ∧ o.element = "TMAX") ∧
        (r.tmin = none ↔ ¬ ∃ o ∈ obs, o.year = r.year ∧ o.month = r.month ∧ o.element = "TMIN")) := by
  have hc : (obs.any (fun o => o.element == "TMAX") && obs.any (fun o => o.element == "TMIN")) = true := by
    rw [Bool.and_eq_true, List.any_eq_true, List.any_eq_true]
    obtain ⟨o1, h1, he1⟩ := hmax
    obtain ⟨o2, h2, he2⟩ := hmin
    exact ⟨⟨o1, h1, beq_iff_eq.mpr he1⟩, ⟨o2, h2, beq_iff_eq.mpr he2⟩⟩
  refine ⟨(uniqueFirst (obs.map fun o => (o.year, o.month))).map
      (fun p =>
        { station_id := sid, year := p.1, month := p.2,
          tmax := monthlyCell obs p.1 p.2 "TMAX",
          tmin := monthlyCell obs p.1 p.2 "TMIN" }), ?_, ?_, ?_, ?_⟩
  · unfold create_monthly_averages
    rw [if_pos hc]
  · rw [List.map_map]
    have hid : ((fun r : MonthlyRow => (r.year, r.month)) ∘
        (fun p : Int × Int =>
          ({ station_id := sid, year := p.1, month := p.2,
             tmax := monthlyCell obs p.1 p.2 "TMAX",
             tmin := monthlyCell obs p.1 p.2 "TMIN" } : MonthlyRow))) = fun p => p := rfl
    rw [hid, List.map_id']
    exact nodup_uniqueFirst _
  · intro y m
    constructor
    · intro hp
      have hu : (y, m) ∈ uniqueFirst (obs.map fun o => (o.year, o.month)) :=
        (mem_uniqueFirst _ _).mpr hp
      exact ⟨_, List.mem_map_of_mem _ hu, rfl, rfl⟩
    · rintro ⟨r, hr, hy, hm⟩
      obtain ⟨p, hp, rfl⟩ := List.mem_map.mp hr
      have hpe : p = (y, m) := by
        cases p
        simp only at hy hm
        rw [hy, hm]
      subst hpe
      exact (mem_uniqueFirst _ _).mp hp
  · intro r hr
    obtain ⟨p, hp, rfl⟩ := List.mem_map.mp hr
    exact ⟨rfl, rfl, rfl, monthlyCell_none_iff obs p.1 p.2 "TMAX",
      monthlyCell_none_iff obs p.1 p.2 "TMIN"⟩

/-- C7 counterexample: a nonempty cleaned dataset containing only TMIN
observations makes `create_monthly_averages` fail (pandas `KeyError` on
the missing TMAX column, caught and reported as `False`), producing no
row at all for the (year, month) present. -/
theorem monthly_single_element_fails :
    create_monthly_averages "S1" tminOnlyObs = none ∧ tminOnlyObs ≠ [] := by
  constructor
  · decide
  · decide

/-- C7 witness: with both elements present the pivot succeeds and has a
row for the (2021, 1) month. -/
theorem monthly_pivot_rows_witness :
    ∃ rows, create_monthly_averages "S1" bothObs = some rows ∧
      ∃ r ∈ rows, r.year = 2021 ∧ r.month = 1 := by
  obtain ⟨rows, hsome, hnd, hcov, hfields⟩ := monthly_pivot_rows "S1" bothObs
    ⟨⟨"S1", 2021, 1, 1, "TMAX", 43/2⟩, by simp [bothObs], rfl⟩
    ⟨⟨"S1", 2021, 1, 2, "TMIN", 5⟩, by simp [bothObs], rfl⟩
  exact ⟨rows, hsome, (hcov 2021 1).1 (by simp [bothObs])⟩

lemma mergeLeft_mem (stations : List StationNameRow) (inv : List InventoryRow)
    (p : StationNameRow × Option InventoryRow) (hp : p ∈ mergeLeft stations inv) :
    p.1 ∈ stations ∧
      (p.2 = none ∨ ∃ r ∈ inv, r.station_id = p.1.station_id ∧ p.2 = some r) := by
  unfold mergeLeft at hp
  rw [List.mem_flatten] at hp
  obtain ⟨L, hL, hpL⟩ := hp
  obtain ⟨s, hs, rfl⟩ := List.mem_map.mp hL
  by_cases h : (inv.filter fun r => r.station_id == s.station_id).isEmpty = true
  · rw [if_pos h] at hpL
    rw [List.mem_singleton] at hpL
    subst hpL
    exact ⟨hs, Or.inl rfl⟩
  · rw [if_neg h] at hpL
    obtain ⟨r, hr, rfl⟩ := List.mem_map.mp hpL
    rw [List.mem_filter] at hr
    exact ⟨hs, Or.inr ⟨r, hr.1, beq_iff_eq.mp hr.2, rfl⟩⟩

lemma mergeLeft_mem_none (stations : List StationNameRow) (inv : List InventoryRow)
    (s : StationNameRow) (hs : s ∈ stations)
    (hfil : (inv.filter fun r => r.station_id == s.station_id) = []) :
    (s, (none : Option InventoryRow)) ∈ mergeLeft stations inv := by
  unfold mergeLeft
  rw [List.mem_flatten]
  refine ⟨_, List.mem_map_of_mem _ hs, ?_⟩
  rw [hfil]
  simp

/-- C10: a station of the station-list file with no TMAX or TMIN
inventory row appears in the persisted catalog with FirstYear = 0 and
LastYear = 0 (the zero-fill applies to the year columns only) but with
missing latitude and longitude, since coordinates come only from the
inventory file. -/
theorem catalog_missing_inventory_row (stations : List StationNameRow)
    (inventory : List InventoryRow) (s : StationNameRow) (hs : s ∈ stations)
    (hninv : ∀ r ∈ inventory, r.station_id = s.station_id →
      ¬(r.element = "TMAX" ∨ r.element = "TMIN")) :
    ∃ c ∈ initialize_stations_data stations inventory,
      c.station_id = s.station_id ∧ c.firstYear = 0 ∧ c.lastYear = 0 ∧
      c.latitude = none ∧ c.longitude = none := by
  have hfil : ((inventory.filter fun r => r.element == "TMAX" || r.element == "TMIN").filter
      fun r => r.station_id == s.station_id) = [] := by
    rw [List.filter_eq_nil_iff]
    intro r hr
    rw [List.mem_filter] at hr
    intro hb
    refine hninv r hr.1 (beq_iff_eq.mp hb) ?_
    have := hr.2
    rw [Bool.or_eq_true, beq_iff_eq, beq_iff_eq] at this
    exact this
  have hmem := mergeLeft_mem_none stations _ s hs hfil
  have hsid : s.station_id ∈ uniqueFirst ((mergeLeft stations
      (inventory.filter fun r => r.element == "TMAX" || r.element == "TMIN")).map
        fun p => p.1.station_id) := by
    rw [mem_uniqueFirst]
    exact List.mem_map_of_mem _ hmem
  have hrows : ∀ p ∈ (mergeLeft stations
      (inventory.filter fun r => r.element == "TMAX" || r.element == "TMIN")).filter
        (fun p => p.1.station_id == s.station_id), p.2 = none := by
    intro p hp
    rw [List.mem_filter] at hp
    rcases (mergeLeft_mem _ _ p hp.1).2 with h | ⟨r, hr, hrs, _⟩
    · exact h
    · exfalso
      rw [List.mem_filter] at hr
      have hb := hr.2
      rw [Bool.or_eq_true, beq_iff_eq, beq_iff_eq] at hb
      exact hninv r hr.1 (by rw [hrs, beq_iff_eq.mp hp.2]) hb
  have hfm : ∀ (g : InventoryRow → ℚ),
      ((mergeLeft stations
        (inventory.filter fun r => r.element == "TMAX" || r.element == "TMIN")).filter
          (fun p => p.1.station_id == s.station_id)).filterMap
            (fun p => p.2.map g) = [] := by
    intro g
    rw [List.filterMap_eq_nil_iff]
    intro p hp
    rw [hrows p hp]
    rfl
  have hfy : ∀ (g : InventoryRow → Int),
      ((mergeLeft stations
        (inventory.filter fun r => r.element == "TMAX" || r.element == "TMIN")).filter
          (fun p => p.1.station_id == s.station_id)).filterMap
            (fun p => p.2.map g) = [] := by
    intro g
    rw [List.filterMap_eq_nil_iff]
    intro p hp
    rw [hrows p hp]
    rfl
  refine ⟨_, List.mem_map_of_mem _ hsid, rfl, ?_, ?_, ?_, ?_⟩
  · show (maxOptInt _).getD 0 = 0
    rw [hfy]
    rfl
  · show (minOptInt _).getD 0 = 0
    rw [hfy]
    rfl
  · show List.head? _ = none
    rw [hfm]
    rfl
  · show List.head? _ = none
    rw [hfm]
    rfl

/-- C10 witness: station S1 whose only inventory row is PRCP gets year
columns 0 and null coordinates. -/
theorem catalog_missing_inventory_row_witness :
    ∃ c ∈ initialize_stations_data c10stations c10inventory,
      c.firstYear = 0 ∧ c.lastYear = 0 ∧ c.latitude = none ∧ c.longitude = none := by
  obtain ⟨c, hc, _, h1, h2, h3, h4⟩ :=
    catalog_missing_inventory_row c10stations c10inventory ⟨"S1", "Name1"⟩
      (by simp [c10stations]) (by decide)
  exact ⟨c, hc, h1, h2, h3, h4⟩

lemma daySlot_some_val (line : String) (y m : Int) (d : Nat) (o : DailyObservation)
    (h : daySlot line y m d = some o) :
    pythonInt (valueField line d) = some o.value ∧ o.value ≠ -9999 ∧ o.day = d + 1 := by
  unfold daySlot at h
  cases hv : pythonInt (valueField line d) with
  | none =>
    rw [hv, Option.none_bind] at h
    exact Option.noConfusion h
  | some v =>
    rw [hv, Option.some_bind] at h
    by_cases hz : v = -9999
    · rw [if_pos hz] at h
      exact Option.noConfusion h
    · rw [if_neg hz] at h
      have he := Option.some.inj h
      subst he
      exact ⟨rfl, hz, rfl⟩

lemma daySlot_some_of (line : String) (y m : Int) (d : Nat) (v : Int)
    (hv : pythonInt (valueField line d) = some v) (hz : v ≠ -9999) :
    ∃ o, daySlot line y m d = some o ∧ o.day = d + 1 ∧ o.value = v := by
  refine ⟨{ station_id := strSlice line 0 11, year := y, month := m, day := d + 1,
            element := strSlice line 17 21, value := v,
            quality_flag := strSlice line (21 + d * 8 + 5) (21 + d * 8 + 6),
            measurement_flag := strSlice line (21 + d * 8 + 6) (21 + d * 8 + 7),
            source_flag := strSlice line (21 + d * 8 + 7) (21 + d * 8 + 8) }, ?_, rfl, rfl⟩
  unfold daySlot
  rw [hv, Option.some_bind, if_neg hz]

lemma parseLine_short (line : String) (h : line.length < 269) : parseLine line = some [] := by
  unfold parseLine
  rw [if_pos h]

lemma parseLine_some_elim (line : String) (l : List DailyObservation)
    (hl : parseLine line = some l) (hlen : ¬ line.length < 269) :
    ∃ y m, pythonInt (strSlice line 11 15) = some y ∧
      pythonInt (strSlice line 15 17) = some m ∧
      l = (List.range 31).filterMap (daySlot line y m) := by
  unfold parseLine at hl
  rw [if_neg hlen] at hl
  cases hY : pythonInt (strSlice line 11 15) with
  | none =>
    rw [hY, Option.none_bind] at hl
    exact Option.noConfusion hl
  | some y =>
    rw [hY, Option.some_bind] at hl
    cases hM : pythonInt (strSlice line 15 17) with
    | none =>
      rw [hM, Option.map_none'] at hl
      exact Option.noConfusion hl
    | some m =>
      rw [hM, Option.map_some'] at hl
      exact ⟨y, m, rfl, rfl, (Option.some.inj hl).symm⟩

lemma parseLine_mem_val (line : String) (l : List DailyObservation)
    (hl : parseLine line = some l) (o : DailyObservation) (ho : o ∈ l) :
    o.value ≠ -9999 ∧ 1 ≤ o.day ∧ o.day ≤ 31 ∧
      pythonInt (valueField line (o.day - 1)) = some o.value := by
  by_cases hlen : line.length < 269
  · rw [parseLine_short line hlen] at hl
    have := Option.some.inj hl
    subst this
    exact absurd ho (List.not_mem_nil o)
  · obtain ⟨y, m, hY, hM, rfl⟩ := parseLine_some_elim line l hl hlen
    obtain ⟨d, hd, hfd⟩ := List.mem_filterMap.mp ho
    rw [List.mem_range] at hd
    obtain ⟨hv, hz, hday⟩ := daySlot_some_val line y m d o hfd
    refine ⟨hz, ?_, ?_, ?_⟩
    · omega
    · omega
    · rw [hday]
      simpa using hv

lemma mapM_parseLine_none (lines : List String) (line : String) (hmem : line ∈ lines)
    (h : parseLine line = none) : lines.mapM parseLine = none := by
  induction lines with
  | nil => cases hmem
  | cons a rest ih =>
    rw [List.mapM_cons]
    rcases List.mem_cons.mp hmem with rfl | hmem2
    · rw [h]
      rfl
    · cases ha : parseLine a with
      | none => rfl
      | some b =>
        rw [ih hmem2]
        rfl

lemma mapM_parseLine_mem_some (lines : List String) (ls : List (List DailyObservation))
    (h : lines.mapM parseLine = some ls) :
    ∀ l ∈ ls, ∃ line ∈ lines, parseLine line = some l := by
  induction lines generalizing ls with
  | nil =>
    rw [List.mapM_nil] at h
    have := Option.some.inj h
    subst this
    intro l hl
    exact absurd hl (List.not_mem_nil l)
  | cons a rest ih =>
    rw [List.mapM_cons] at h
    cases ha : parseLine a with
    | none =>
      rw [ha] at h
      exact Option.noConfusion h
    | some b =>
      rw [ha] at h
      cases hrest : rest.mapM parseLine with
      | none =>
        rw [hrest] at h
        exact Option.noConfusion h
      | some bs =>
        rw [hrest] at h
        have hcons := Option.some.inj h
        subst hcons
        intro l hl
        rcases List.mem_cons.mp hl with rfl | hl2
        · exact ⟨a, List.mem_cons_self a rest, ha⟩
        · obtain ⟨line, hline, hp⟩ := ih bs hrest l hl2
          exact ⟨line, List.mem_cons_of_mem _ hline, hp⟩

/-- C4 (amended): lines shorter than 269 characters produce no
observations; on a line of length at least 269 whose year and month
header fields parse as integers, each of the 31 day slots is emitted
exactly when its 5-character value field parses as an integer different
from -9999, and every emitted observation carries that parsed value —
hence never -9999; if a header field of some long line does not parse,
the whole archive parse fails and no observations are produced. -/
theorem parse_day_slots (content : String) :
    (∀ line ∈ splitLines content, line.length < 269 → parseLine line = some []) ∧
    (∀ line ∈ splitLines content, ∀ l, parseLine line = some l →
       (∀ o ∈ l, o.value ≠ -9999 ∧ 1 ≤ o.day ∧ o.day ≤ 31 ∧
          pythonInt (valueField line (o.day - 1)) = some o.value) ∧
       (269 ≤ line.length → ∀ d, d < 31 →
          ∀ v, pythonInt (valueField line d) = some v → v ≠ -9999 →
            ∃ o ∈ l, o.day = d + 1 ∧ o.value = v)) ∧
    (∀ line ∈ splitLines content, parseLine line = none → parseArchive content = none) ∧
    (∀ obs, parseArchive content = some obs → ∀ o ∈ obs, o.value ≠ -9999) := by
  refine ⟨?_, ?_, ?_, ?_⟩
  · intro line _ h
    exact parseLine_short line h
  · intro line _ l hl
    constructor
    · intro o ho
      exact parseLine_mem_val line l hl o ho
    · intro hlen d hd v hv hz
      have hlen' : ¬ line.length < 269 := by omega
      obtain ⟨y, m, hY, hM, rfl⟩ := parseLine_some_elim line l hl hlen'
      obtain ⟨o, hslot, hday, hval⟩ := daySlot_some_of line y m d v hv hz
      exact ⟨o, List.mem_filterMap.mpr ⟨d, List.mem_range.mpr hd, hslot⟩, hday, hval⟩
  · intro line hline h
    unfold parseArchive
    rw [mapM_parseLine_none _ line hline h]
    rfl
  · intro obs hobs o ho
    unfold parseArchive at hobs
    cases hm : (splitLines content).mapM parseLine with
    | none =>
      rw [hm] at hobs
      exact Option.noConfusion hobs
    | some ls =>
      rw [hm, Option.map_some'] at hobs
      have hfl := Option.some.inj hobs
      subst hfl
      obtain ⟨l, hl, hol⟩ := List.mem_flatten.mp ho
      obtain ⟨line, hlinem, hp⟩ := mapM_parseLine_mem_some _ ls hm l hl
      exact (parseLine_mem_val line l hp o hol).1

set_option maxRecDepth 40000 in
/-- C4 counterexample: a 269-character line whose day-1 value field
parses as 215 (≠ -9999) but whose year header field is not numeric
makes the whole archive parse fail, so that day slot is not emitted as
an observation — the claim's per-slot "if and only if" does not hold of
the code without a proviso on the header fields. -/
theorem parse_header_failure_drops_slot :
    269 ≤ c4badLine.length ∧
    pythonInt (valueField c4badLine 0) = some 215 ∧
    parseArchive c4badLine = none := by
  refine ⟨by decide, by decide, by decide⟩

set_option maxRecDepth 40000 in
/-- C4 witness: on a well-formed line, day slot 1 with value field 215
is emitted with value 215. -/
theorem parse_day_slots_witness :
    ∃ o ∈ (parseLine c4goodLine).getD [], o.day = 1 ∧ o.value = 215 := by
  have hsome : parseLine c4goodLine = some ((parseLine c4goodLine).getD []) := by decide
  have h := ((parse_day_slots c4goodLine).2.1 c4goodLine (by decide) _ hsome).2
    (by decide) 0 (by decide) 215 (by decide) (by decide)
  simpa using h

lemma filter_filter_and {α : Type} (p q : α → Bool) (l : List α) :
    (l.filter p).filter q = l.filter fun a => p a && q a := by
  induction l with
  | nil => rfl
  | cons a l ih =>
    by_cases h : p a = true
    · by_cases h2 : q a = true <;> simp [List.filter_cons, h, h2, ih]
    · simp [List.filter_cons, h, ih]

lemma filter_append_perm_or {α : Type} (p q : α → Bool) (l : List α)
    (hdisj : ∀ a ∈ l, ¬(p a = true ∧ q a = true)) :
    (l.filter p ++ l.filter q).Perm (l.filter fun a => p a || q a) := by
  induction l with
  | nil => simp
  | cons a l ih =>
    have ih' := ih fun x hx => hdisj x (List.mem_cons_of_mem a hx)
    by_cases hp : p a = true
    · have hq : q a = false := by
        rcases Bool.eq_false_or_eq_true (q a) with h | h
        · exact absurd ⟨hp, h⟩ (hdisj a (List.mem_cons_self a l))
        · exact h
      simp only [List.filter_cons, hp, hq, Bool.true_or, if_true]
      exact List.Perm.cons a ih'
    · rw [Bool.not_eq_true] at hp
      by_cases hq : q a = true
      · simp only [List.filter_cons, hp, hq, Bool.false_or, if_true, if_false]
        exact List.perm_middle.trans (List.Perm.cons a ih')
      · rw [Bool.not_eq_true] at hq
        simp only [List.filter_cons, hp, hq, Bool.false_or, if_false]
        exact ih'

lemma optMean_perm (l₁ l₂ : List ℚ) (h : l₁.Perm l₂) : optMean l₁ = optMean l₂ := by
  cases l₁ with
  | nil =>
    cases l₂ with
    | nil => rfl
    | cons b t => exact absurd h.length_eq (by simp)
  | cons a s =>
    cases l₂ with
    | nil => exact absurd h.length_eq (by simp)
    | cons b t =>
      unfold optMean
      simp only [List.isEmpty_cons, if_false]
      rw [h.sum_eq, h.length_eq]

lemma seasonVal_perm (l₁ l₂ : List MonthlyRow) (h : l₁.Perm l₂) (f : MonthlyRow → Option ℚ) :
    seasonVal l₁ f = seasonVal l₂ f := by
  cases l₁ with
  | nil =>
    cases l₂ with
    | nil => rfl
    | cons b t => exact absurd h.length_eq (by simp)
  | cons a s =>
    cases l₂ with
    | nil => exact absurd h.length_eq (by simp)
    | cons b t =>
      unfold seasonVal
      simp only [List.isEmpty_cons, if_false]
      rw [optMean_perm _ _ (h.filterMap f)]

lemma decJanFeb_perm (df : List MonthlyRow) (y : Int) :
    (((df.filter fun r => r.year == y - 1).filter fun r => r.month == 12) ++
      ((df.filter fun r => r.year == y).filter fun r => r.month == 1 || r.month == 2)).Perm
      (northWinterRows df y) := by
  rw [filter_filter_and, filter_filter_and]
  unfold northWinterRows
  apply filter_append_perm_or
  intro a _
  rintro ⟨h1, h2⟩
  rw [Bool.and_eq_true] at h1 h2
  have e1 := beq_iff_eq.mp h1.2
  have e2 := h2.2
  rw [Bool.or_eq_true, beq_iff_eq, beq_iff_eq] at e2
  omega

lemma seasonal_mem_of_year (yearly_df : List YearlyRow) (b : Bool) (df : List MonthlyRow)
    (y : Int) (hy : y ∈ df.map fun r => r.year) :
    ∃ r ∈ calculate_seasonal_data yearly_df b df, r.jahr = y := by
  unfold calculate_seasonal_data
  exact ⟨_, List.mem_map_of_mem _ ((mem_uniqueFirst _ _).mpr hy), rfl⟩

/-- C6: with the hemisphere chosen by the sign of the station latitude
(`station_lat >= 0` means northern), the northern winter aggregate of
year Y is computed from the rows {December of Y-1, January of Y,
February of Y} of the monthly data (December of Y is excluded by that
row set); in the southern hemisphere those same months form the summer
aggregate, and the whole southern table is the northern table with the
season labels rotated by two quarters. -/
theorem seasonal_winter_hemisphere (yearly_df : List YearlyRow) (df : List MonthlyRow) (lat : ℚ) :
    (0 ≤ lat → ∀ r ∈ display_seasonal yearly_df lat df,
       r.winterMin = seasonVal (northWinterRows df r.jahr) (fun x => x.tmin) ∧
       r.winterMax = seasonVal (northWinterRows df r.jahr) (fun x => x.tmax)) ∧
    (lat < 0 → ∀ r ∈ display_seasonal yearly_df lat df,
       r.sommerMin = seasonVal (northWinterRows df r.jahr) (fun x => x.tmin) ∧
       r.sommerMax = seasonVal (northWinterRows df r.jahr) (fun x => x.tmax)) ∧
    calculate_seasonal_data yearly_df false df =
      (calculate_seasonal_data yearly_df true df).map rotateSeasons := by
  refine ⟨?_, ?_, ?_⟩
  · intro hlat r hr
    have hn : display_is_northern lat = true := decide_eq_true hlat
    unfold display_seasonal at hr
    rw [hn] at hr
    unfold calculate_seasonal_data at hr
    obtain ⟨y, hy, rfl⟩ := List.mem_map.mp hr
    constructor
    · exact seasonVal_perm _ _ (decJanFeb_perm df y) _
    · exact seasonVal_perm _ _ (decJanFeb_perm df y) _
  · intro hlat r hr
    have hn : display_is_northern lat = false := decide_eq_false (not_le.mpr hlat)
    unfold display_seasonal at hr
    rw [hn] at hr
    unfold calculate_seasonal_data at hr
    obtain ⟨y, hy, rfl⟩ := List.mem_map.mp hr
    constructor
    · exact seasonVal_perm _ _ (decJanFeb_perm df y) _
    · exact seasonVal_perm _ _ (decJanFeb_perm df y) _
  · unfold calculate_seasonal_data
    rw [List.map_map]
    rfl

/-- C6 witness: for monthly tmin values Dec 2020 = 3, Jan 2021 = 5,
Feb 2021 = 7 and Dec 2021 = 100 at latitude 48, the 2021 winter tmin is
5 — the mean of 3, 5, 7 using December of the prior year, not December
of 2021 (which would give 115/4). -/
theorem seasonal_winter_hemisphere_witness :
    ∃ r ∈ display_seasonal [] (48 : ℚ) c6df, r.jahr = 2021 ∧ r.winterMin = some 5 := by
  obtain ⟨r, hr, hj⟩ := seasonal_mem_of_year [] (display_is_northern 48) c6df 2021
    (by simp [c6df])
  have h := (seasonal_winter_hemisphere [] c6df 48).1 (by norm_num) r hr
  have hval : seasonVal (northWinterRows c6df 2021) (fun x => x.tmin) = some 5 := by
    have hrows : northWinterRows c6df 2021 =
        [⟨"S1", 2020, 12, none, some 3⟩, ⟨"S1", 2021, 1, none, some 5⟩,
         ⟨"S1", 2021, 2, none, some 7⟩] := by decide
    rw [hrows]
    show (optMean [3, 5, 7]).map roundTo2 = some 5
    have hm : optMean [3, 5, 7] = some 5 := by unfold optMean; norm_num
    rw [hm]
    show some (roundTo2 5) = some 5
    rw [show (5 : ℚ) = ((5 : ℤ) : ℚ) by norm_num, roundTo2_intCast]
  refine ⟨r, hr, hj, ?_⟩
  rw [h.1, hj, hval]

lemma writeFile_keep_entries (fs : FS) (s : String) (k : FileKind) (t : Nat)
    (h : ∀ e ∈ fs, ¬(e.station = s ∧ e.kind = k)) :
    writeFile fs s k t = fs ++ [⟨s, k, t⟩] := by
  unfold writeFile
  congr 1
  apply List.filter_eq_self.mpr
  intro e he
  rcases Decidable.not_and_iff_or_not.mp (h e he) with h1 | h1
  · rw [beq_eq_false_iff_ne.mpr h1, Bool.false_and]
    rfl
  · rw [beq_eq_false_iff_ne.mpr h1, Bool.and_false]
    rfl

lemma writeFile_replace_last (fs : FS) (s : String) (k : FileKind) (t t' : Nat)
    (h : ∀ e ∈ fs, ¬(e.station = s ∧ e.kind = k)) :
    writeFile (fs ++ [⟨s, k, t⟩]) s k t' = fs ++ [⟨s, k, t'⟩] := by
  unfold writeFile
  rw [List.filter_append]
  have ha : fs.filter (fun e => !(e.station == s && e.kind == k)) = fs := by
    apply List.filter_eq_self.mpr
    intro e he
    rcases Decidable.not_and_iff_or_not.mp (h e he) with h1 | h1
    · rw [beq_eq_false_iff_ne.mpr h1, Bool.false_and]
      rfl
    · rw [beq_eq_false_iff_ne.mpr h1, Bool.and_false]
      rfl
  have hb : ([⟨s, k, t⟩] : FS).filter (fun e => !(e.station == s && e.kind == k)) = [] := by
    simp
  rw [ha, hb, List.append_nil]

lemma get_or_build_miss_allOk (fs : FS) (s : String) (now : Nat)
    (hmiss : fileExists fs s .monthly = false)
    (hfresh : ∀ e ∈ (if 10 ≤ (yearlyStations fs).length then evictOldest fs else fs),
      e.station ≠ s) :
    get_or_build fs s allOk now =
      ((if 10 ≤ (yearlyStations fs).length then evictOldest fs else fs) ++
        stationBlock s now, .built) := by
  have hcond : (fileExists fs s FileKind.monthly && fileExists fs s FileKind.yearly) = false := by
    rw [hmiss, Bool.false_and]
  have e1 : writeFile (if 10 ≤ (yearlyStations fs).length then evictOldest fs else fs)
      s .raw now = (if 10 ≤ (yearlyStations fs).length then evictOldest fs else fs) ++
        [⟨s, .raw, now⟩] :=
    writeFile_keep_entries _ s .raw now (fun e he hc => hfresh e he hc.1)
  have e2 : writeFile ((if 10 ≤ (yearlyStations fs).length then evictOldest fs else fs) ++
      [⟨s, .raw, now⟩]) s .raw now =
      (if 10 ≤ (yearlyStations fs).length then evictOldest fs else fs) ++ [⟨s, .raw, now⟩] :=
    writeFile_replace_last _ s .raw now now (fun e he hc => hfresh e he hc.1)
  have e3 : writeFile ((if 10 ≤ (yearlyStations fs).length then evictOldest fs else fs) ++
      [⟨s, .raw, now⟩]) s .monthly now =
      ((if 10 ≤ (yearlyStations fs).length then evictOldest fs else fs) ++
        [⟨s, .raw, now⟩]) ++ [⟨s, .monthly, now⟩] := by
    apply writeFile_keep_entries
    intro e he hc
    rcases List.mem_append.mp he with h' | h'
    · exact hfresh e h' hc.1
    · rw [List.mem_singleton] at h'
      subst h'
      cases hc.2
  have e4 : writeFile (((if 10 ≤ (yearlyStations fs).length then evictOldest fs else fs) ++
      [⟨s, .raw, now⟩]) ++ [⟨s, .monthly, now⟩]) s .yearly now =
      (((if 10 ≤ (yearlyStations fs).length then evictOldest fs else fs) ++
        [⟨s, .raw, now⟩]) ++ [⟨s, .monthly, now⟩]) ++ [⟨s, .yearly, now⟩] := by
    apply writeFile_keep_entries
    intro e he hc
    rcases List.mem_append.mp he with h' | h'
    · rcases List.mem_append.mp h' with h'' | h''
      · exact hfresh e h'' hc.1
      · rw [List.mem_singleton] at h''
        subst h''
        cases hc.2
    · rw [List.mem_singleton] at h'
      subst h'
      cases hc.2
  simp only [get_or_build, allOk, hcond]
  norm_num
  rw [e1, e2, e3, e4]
  simp [stationBlock, List.append_assoc]

lemma blocks_append (l : List String) (s : String) (t : Nat) :
    blocks (l ++ [s]) t = blocks l t ++ stationBlock s (t + l.length) := by
  induction l generalizing t with
  | nil => simp [blocks]
  | cons a r ih =>
    show stationBlock a t ++ blocks (r ++ [s]) (t + 1) =
      (stationBlock a t ++ blocks r (t + 1)) ++ stationBlock s (t + (a :: r).length)
    rw [ih, List.append_assoc]
    have hl : t + 1 + r.length = t + (a :: r).length := by
      simp
      omega
    rw [hl]

lemma mem_blocks_station (l : List String) (t : Nat) (e : FileEntry) (he : e ∈ blocks l t) :
    e.station ∈ l := by
  induction l generalizing t with
  | nil => cases he
  | cons a r ih =>
    simp only [blocks] at he
    rcases List.mem_append.mp he with h | h
    · simp only [stationBlock, List.mem_cons, List.not_mem_nil, or_false] at h
      rcases h with rfl | rfl | rfl <;> exact List.mem_cons_self _ _
    · exact List.mem_cons_of_mem _ (ih (t + 1) h)

lemma fileExists_blocks (l : List String) (t : Nat) (s : String) (k : FileKind) :
    fileExists (blocks l t) s k = l.any (fun x => x == s) := by
  induction l generalizing t with
  | nil => rfl
  | cons a r ih =>
    have hblock : (stationBlock a t).any (fun e => e.station == s && e.kind == k) = (a == s) := by
      cases k <;> simp [stationBlock] <;> cases a == s <;> simp
    show (stationBlock a t ++ blocks r (t + 1)).any (fun e => e.station == s && e.kind == k) =
      (a :: r).any (fun x => x == s)
    rw [List.any_append, hblock, List.any_cons]
    have ih' : (blocks r (t + 1)).any (fun e => e.station == s && e.kind == k) =
        r.any (fun x => x == s) := ih (t + 1)
    rw [ih']

lemma yearlyStations_blocks (l : List String) (t : Nat) :
    yearlyStations (blocks l t) = l := by
  induction l generalizing t with
  | nil => rfl
  | cons a r ih =>
    rw [show yearlyStations (blocks (a :: r) t) = a :: yearlyStations (blocks r (t + 1)) from rfl,
      ih]

lemma ctimesOf_append (fs1 fs2 : FS) (s : String) :
    ctimesOf (fs1 ++ fs2) s = ctimesOf fs1 s ++ ctimesOf fs2 s := by
  unfold ctimesOf
  rw [List.filter_append, List.map_append]

lemma ctimesOf_stationBlock_self (a : String) (t : Nat) :
    ctimesOf (stationBlock a t) a = [t, t, t] := by
  unfold ctimesOf stationBlock
  simp

lemma ctimesOf_stationBlock_ne (a : String) (t : Nat) (s : String) (h : a ≠ s) :
    ctimesOf (stationBlock a t) s = [] := by
  unfold ctimesOf stationBlock
  simp [beq_eq_false_iff_ne.mpr h]

lemma ctimesOf_blocks_ne (l : List String) (t : Nat) (s : String) (h : s ∉ l) :
    ctimesOf (blocks l t) s = [] := by
  induction l generalizing t with
  | nil => rfl
  | cons a r ih =>
    show ctimesOf (stationBlock a t ++ blocks r (t + 1)) s = []
    rw [ctimesOf_append, ctimesOf_stationBlock_ne a t s
      (fun he => h (he ▸ List.mem_cons_self a r)),
      ih (t + 1) (fun hs => h (List.mem_cons_of_mem a hs))]
    rfl

lemma ctimesOf_blocks_nonempty (l : List String) (t : Nat) (s : String) (h : s ∈ l) :
    ctimesOf (blocks l t) s ≠ [] := by
  induction l generalizing t with
  | nil => cases h
  | cons a r ih =>
    show ctimesOf (stationBlock a t ++ blocks r (t + 1)) s ≠ []
    rw [ctimesOf_append]
    intro hc
    rw [List.append_eq_nil] at hc
    rcases List.mem_cons.mp h with rfl | hs
    · rw [ctimesOf_stationBlock_self] at hc
      exact List.noConfusion hc.1
    · exact ih (t + 1) hs hc.2

lemma blocks_ctime_lb (l : List String) (t : Nat) :
    ∀ e ∈ blocks l t, t ≤ e.ctime := by
  induction l generalizing t with
  | nil => intro e he; cases he
  | cons a r ih =>
    intro e he
    simp only [blocks] at he
    rcases List.mem_append.mp he with h | h
    · simp only [stationBlock, List.mem_cons, List.not_mem_nil, or_false] at h
      rcases h with rfl | rfl | rfl <;> exact Nat.le_refl t
    · exact Nat.le_of_succ_le (ih (t + 1) e h)

lemma minCtime_blocks_head (a : String) (r : List String) (t : Nat) (h : a ∉ r) :
    minCtime (blocks (a :: r) t) a = t := by
  unfold minCtime
  rw [show ctimesOf (blocks (a :: r) t) a =
      ctimesOf (stationBlock a t) a ++ ctimesOf (blocks r (t + 1)) a from
        ctimesOf_append _ _ a,
    ctimesOf_stationBlock_self, ctimesOf_blocks_ne r (t + 1) a h]
  simp

lemma foldl_min_ge (c : Nat) (xs : List Nat) :
    ∀ x : Nat, c ≤ x → (∀ y ∈ xs, c ≤ y) → c ≤ xs.foldl min x := by
  induction xs with
  | nil => intro x hx _; exact hx
  | cons y ys ih =>
    intro x hx hxs
    rw [List.foldl_cons]
    exact ih (min x y) (le_min hx (hxs y (List.mem_cons_self y ys)))
      (fun z hz => hxs z (List.mem_cons_of_mem y hz))

lemma minCtime_blocks_tail_ge (a : String) (r : List String) (t : Nat) (s : String)
    (hs : s ∈ r) (hne : a ≠ s) : t + 1 ≤ minCtime (blocks (a :: r) t) s := by
  have heq : ctimesOf (blocks (a :: r) t) s = ctimesOf (blocks r (t + 1)) s := by
    rw [show ctimesOf (blocks (a :: r) t) s =
        ctimesOf (stationBlock a t) s ++ ctimesOf (blocks r (t + 1)) s from
          ctimesOf_append _ _ s,
      ctimesOf_stationBlock_ne a t s hne, List.nil_append]
  have hmem : ∀ x ∈ ctimesOf (blocks r (t + 1)) s, t + 1 ≤ x := by
    intro x hx
    unfold ctimesOf at hx
    obtain ⟨e, he, rfl⟩ := List.mem_map.mp hx
    exact blocks_ctime_lb r (t + 1) e (List.mem_of_mem_filter he)
  unfold minCtime
  rw [heq]
  cases hc : ctimesOf (blocks r (t + 1)) s with
  | nil => exact absurd hc (ctimesOf_blocks_nonempty r (t + 1) s hs)
  | cons x xs =>
    exact foldl_min_ge (t + 1) xs x (hmem x (hc ▸ List.mem_cons_self x xs))
      (fun y hy => hmem y (hc ▸ List.mem_cons_of_mem x hy))

lemma foldl_argmin_first (x : String × Nat) (xs : List (String × Nat))
    (h : ∀ p ∈ xs, ¬ p.2 < x.2) :
    xs.foldl (fun b a => if a.2 < b.2 then a else b) x = x := by
  induction xs with
  | nil => rfl
  | cons y ys ih =>
    rw [List.foldl_cons, if_neg (h y (List.mem_cons_self y ys))]
    exact ih (fun p hp => h p (List.mem_cons_of_mem y hp))

lemma evictOldest_blocks (a : String) (r : List String) (t : Nat)
    (hnd : (a :: r).Nodup) : evictOldest (blocks (a :: r) t) = blocks r (t + 1) := by
  have hna : a ∉ r := (List.nodup_cons.mp hnd).1
  have hmina : minCtime (blocks (a :: r) t) a = t := minCtime_blocks_head a r t hna
  have hargm : argminFirst ((a :: r).map fun s => (s, minCtime (blocks (a :: r) t) s)) =
      some (a, t) := by
    rw [List.map_cons, hmina]
    show some ((r.map fun s => (s, minCtime (blocks (a :: r) t) s)).foldl
      (fun b p => if p.2 < b.2 then p else b) (a, t)) = some (a, t)
    refine congrArg some (foldl_argmin_first (a, t) _ ?_)
    intro p hp
    obtain ⟨s, hs, rfl⟩ := List.mem_map.mp hp
    have hge : t + 1 ≤ minCtime (blocks (a :: r) t) s :=
      minCtime_blocks_tail_ge a r t s hs (fun he => hna (he ▸ hs))
    show ¬ minCtime (blocks (a :: r) t) s < t
    omega
  unfold evictOldest
  rw [yearlyStations_blocks]
  simp only [hargm]
  show (blocks (a :: r) t).filter (fun e => !(e.station == a)) = blocks r (t + 1)
  rw [show blocks (a :: r) t = stationBlock a t ++ blocks r (t + 1) from rfl,
    List.filter_append]
  have h1 : (stationBlock a t).filter (fun e => !(e.station == a)) = [] := by
    simp [stationBlock]
  have h2 : (blocks r (t + 1)).filter (fun e => !(e.station == a)) = blocks r (t + 1) := by
    apply List.filter_eq_self.mpr
    intro e he
    have hst : e.station ∈ r := mem_blocks_station r (t + 1) e he
    have : e.station ≠ a := fun hc => hna (hc ▸ hst)
    rw [beq_eq_false_iff_ne.mpr this]
    rfl
  rw [h1, h2, List.nil_append]

lemma buildAll_append (fs : FS) (l1 l2 : List String) (t : Nat) :
    buildAll fs (l1 ++ l2) t = buildAll (buildAll fs l1 t) l2 (t + l1.length) := by
  induction l1 generalizing fs t with
  | nil => simp [buildAll]
  | cons a r ih =>
    have hl : t + (a :: r).length = t + 1 + r.length := by
      simp only [List.length_cons]
      omega
    show buildAll (get_or_build fs a allOk t).1 (r ++ l2) (t + 1) =
      buildAll (buildAll fs (a :: r) t) l2 (t + (a :: r).length)
    rw [hl, ih]
    rfl

lemma buildAll_fill (pending : List String) : ∀ (done : List String) (t0 : Nat),
    (done ++ pending).Nodup → done.length + pending.length ≤ 10 →
    buildAll (blocks done t0) pending (t0 + done.length) = blocks (done ++ pending) t0 := by
  induction pending with
  | nil =>
    intro done t0 _ _
    simp [buildAll]
  | cons s rest ih =>
    intro done t0 hnd hlen
    have hsdone : s ∉ done := by
      intro hc
      have hdisj := (List.nodup_append.mp hnd).2.2
      exact hdisj hc (List.mem_cons_self s rest)
    have hfreshfs : ∀ e ∈ blocks done t0, e.station ≠ s :=
      fun e he hc => hsdone (hc ▸ mem_blocks_station done t0 e he)
    have hmiss : fileExists (blocks done t0) s .monthly = false := by
      rw [fileExists_blocks, List.any_eq_false]
      intro x hx hb
      exact hsdone (beq_iff_eq.mp hb ▸ hx)
    have hcap : ¬ 10 ≤ (yearlyStations (blocks done t0)).length := by
      rw [yearlyStations_blocks]
      have : rest.length + 1 = (s :: rest).length := by simp
      omega
    have hif : (if 10 ≤ (yearlyStations (blocks done t0)).length
        then evictOldest (blocks done t0) else blocks done t0) = blocks done t0 := if_neg hcap
    have hstep := get_or_build_miss_allOk (blocks done t0) s (t0 + done.length) hmiss
      (fun e he hc => hfreshfs e (by rwa [hif] at he) hc)
    have h1 : (get_or_build (blocks done t0) s allOk (t0 + done.length)).1 =
        blocks (done ++ [s]) t0 := by
      rw [hstep, hif, ← blocks_append]
    show buildAll (get_or_build (blocks done t0) s allOk (t0 + done.length)).1 rest
      (t0 + done.length + 1) = blocks (done ++ s :: rest) t0
    rw [h1]
    have hnd2 : ((done ++ [s]) ++ rest).Nodup := by
      rw [List.append_assoc]
      exact hnd
    have hlen2 : (done ++ [s]).length + rest.length ≤ 10 := by
      rw [List.length_append]
      have : (s :: rest).length = rest.length + 1 := by simp
      simp only [List.length_cons] at hlen
      simp
      omega
    have := ih (done ++ [s]) t0 hnd2 hlen2
    rw [List.length_append] at this
    have harith : t0 + (done.length + 1) = t0 + done.length + 1 := by omega
    rw [show (([s] : List String)).length = 1 from rfl] at this
    rw [harith] at this
    rw [this, List.append_assoc]
    rfl

/-- C3: starting from an empty cache, after 11 successful sequential
builds of distinct stations at strictly increasing creation
timestamps, exactly the first-built station's three dataset files are
absent (the build at capacity evicted the station with the oldest
minimum creation timestamp, which is the first one) and the other 10
stations' files all remain. -/
theorem eviction_after_eleven_builds (s1 s11 : String) (mid : List String)
    (hlen : mid.length = 9) (hnd : (s1 :: (mid ++ [s11])).Nodup) :
    (∀ k, fileExists (buildAll [] (s1 :: (mid ++ [s11])) 1) s1 k = false) ∧
    (∀ s ∈ mid ++ [s11], ∀ k, fileExists (buildAll [] (s1 :: (mid ++ [s11])) 1) s k = true) := by
  have hcons := List.nodup_cons.mp hnd
  have happ := List.nodup_append.mp hcons.2
  have hnd1 : (s1 :: mid).Nodup := by
    apply List.Nodup.sublist _ hnd
    exact (List.sublist_append_left mid [s11]).cons₂ s1
  have hs11 : s11 ∉ s1 :: mid := by
    intro hc
    rcases List.mem_cons.mp hc with heq | hcmid
    · exact hcons.1 (heq ▸ List.mem_append_right mid (List.mem_singleton_self s11))
    · exact happ.2.2 hcmid (List.mem_singleton_self s11)
  have hfill : buildAll [] (s1 :: mid) 1 = blocks (s1 :: mid) 1 := by
    have h := buildAll_fill (s1 :: mid) [] 1 (by simpa using hnd1)
      (by simp only [List.length_nil, List.length_cons, hlen]; omega)
    simpa using h
  have hmiss : fileExists (blocks (s1 :: mid) 1) s11 .monthly = false := by
    rw [fileExists_blocks, List.any_eq_false]
    intro x hx hb
    exact hs11 (beq_iff_eq.mp hb ▸ hx)
  have hcap : 10 ≤ (yearlyStations (blocks (s1 :: mid) 1)).length := by
    rw [yearlyStations_blocks]
    simp [hlen]
  have hif : (if 10 ≤ (yearlyStations (blocks (s1 :: mid) 1)).length
      then evictOldest (blocks (s1 :: mid) 1) else blocks (s1 :: mid) 1) = blocks mid 2 := by
    rw [if_pos hcap, evictOldest_blocks s1 mid 1 hnd1]
  have hfresh : ∀ e ∈ (if 10 ≤ (yearlyStations (blocks (s1 :: mid) 1)).length
      then evictOldest (blocks (s1 :: mid) 1) else blocks (s1 :: mid) 1),
      e.station ≠ s11 := by
    intro e he hc
    rw [hif] at he
    have hmm := mem_blocks_station mid 2 e he
    rw [hc] at hmm
    exact hs11 (List.mem_cons_of_mem s1 hmm)
  have hstep := get_or_build_miss_allOk (blocks (s1 :: mid) 1) s11 11 hmiss hfresh
  have hfinal : buildAll [] (s1 :: (mid ++ [s11])) 1 = blocks (mid ++ [s11]) 2 := by
    have h0 : buildAll [] (s1 :: (mid ++ [s11])) 1 =
        buildAll (buildAll [] (s1 :: mid) 1) [s11] (1 + (s1 :: mid).length) :=
      buildAll_append [] (s1 :: mid) [s11] 1
    rw [h0, hfill]
    have harg : 1 + (s1 :: mid).length = 11 := by
      rw [List.length_cons, hlen]
    rw [harg]
    show (get_or_build (blocks (s1 :: mid) 1) s11 allOk 11).1 = blocks (mid ++ [s11]) 2
    rw [hstep]
    show (if 10 ≤ (yearlyStations (blocks (s1 :: mid) 1)).length
      then evictOldest (blocks (s1 :: mid) 1) else blocks (s1 :: mid) 1) ++
        stationBlock s11 11 = blocks (mid ++ [s11]) 2
    rw [hif, blocks_append, hlen]
  constructor
  · intro k
    rw [hfinal, fileExists_blocks, List.any_eq_false]
    intro x hx hb
    exact hcons.1 (beq_iff_eq.mp hb ▸ hx)
  · intro s hs k
    rw [hfinal, fileExists_blocks, List.any_eq_true]
    exact ⟨s, hs, beq_self_eq_true s⟩

/-- C3 witness: building stations A..K in order from an empty cache
leaves A's yearly file deleted and B's and K's present. -/
theorem eviction_after_eleven_builds_witness :
    fileExists (buildAll []
      ("A" :: (["B", "C", "D", "E", "F", "G", "H", "I", "J"] ++ ["K"])) 1) "A" .yearly = false ∧
    fileExists (buildAll []
      ("A" :: (["B", "C", "D", "E", "F", "G", "H", "I", "J"] ++ ["K"])) 1) "B" .yearly = true ∧
    fileExists (buildAll []
      ("A" :: (["B", "C", "D", "E", "F", "G", "H", "I", "J"] ++ ["K"])) 1) "K" .yearly = true := by
  have h := eviction_after_eleven_builds "A" "K" ["B", "C", "D", "E", "F", "G", "H", "I", "J"]
    (by decide) (by decide)
  exact ⟨h.1 .yearly, h.2 "B" (by decide) .yearly, h.2 "K" (by decide) .yearly⟩
